import Mathlib

/-!
Verification of the stream reducer `process_streaming_response` from
`examples/agent_observability/OpenTelemetry-Agent-Instrumentation/main.py`.

The Python function is:

  def process_streaming_response(stream):
      full_response = ""
      try:
          for event in stream:
              event_dict = (
                  event.to_response_dict()
                  if hasattr(event, "to_response_dict")
                  else event
              )
              if "chunk" in event_dict:
                  chunk_data = event_dict["chunk"]
                  if "bytes" in chunk_data:
                      output_bytes = chunk_data["bytes"]
                      if isinstance(output_bytes, bytes):
                          output_text = output_bytes.decode("utf-8")
                      else:
                          output_text = str(output_bytes)
                      full_response += output_text
      except Exception as e:
          print(f"\nError processing stream: \x7be\x7d")
      return full_response

We shallowly embed the Python value universe the stream can carry (bytes,
str, int, dict with string keys), the exceptions the loop body can raise,
and the loop itself.  Exceptions propagate as `Except.error`; the single
`try`/`except` around the whole `for` loop is the final catch that turns
any raised exception into a printed diagnostic plus a return of the
accumulation so far.
-/

/-- The universe of Python values carried by agent-event streams: byte
strings (as lists of byte values), text strings, integers (the
representative non-bytes, non-text scalar), and dictionaries with string
keys.  Bytes are `List Nat` with each entry `< 256` on real inputs. -/
inductive PyVal where
  | vBytes : List Nat → PyVal
  | vStr : String → PyVal
  | vInt : Int → PyVal
  | vDict : List (String × PyVal) → PyVal

/-- The exceptions the reducer's loop body or the upstream iterator can
raise.  `streamError` stands for an arbitrary exception raised by the
upstream iterator itself (transport failure); its payload is the message. -/
inductive PyErr where
  | typeError
  | keyError
  | unicodeDecodeError
  | streamError : String → PyErr
deriving DecidableEq

/-- An event pulled from the stream: either a raw Python value (`raw`), or
a botocore Event object exposing `to_response_dict` that returns the given
mapping (`obj`).  `hasattr(event, "to_response_dict")` is true exactly for
`obj`. -/
inductive AgentEvent where
  | raw : PyVal → AgentEvent
  | obj : PyVal → AgentEvent

/-- One step of iterating the stream: the iterator either yields an event
or itself raises (connection drop, transport decode error, ...).  A stream
is a list of such steps; iteration stops at the first `raiseErr`. -/
inductive StreamItem where
  | yield : AgentEvent → StreamItem
  | raiseErr : PyErr → StreamItem

/-- `event.to_response_dict() if hasattr(event, "to_response_dict") else
event`: an `obj` is converted through `to_response_dict`, a `raw` value is
used as it is. -/
def normalizeEvent : AgentEvent → PyVal
  | .obj d => d
  | .raw v => v

/-- Whether a byte is a UTF-8 continuation byte (0x80–0xBF). -/
def isCont (b : Nat) : Bool := 0x80 ≤ b && b ≤ 0xBF

/-- Strict UTF-8 decoding of a byte list into characters, as performed by
Python's `bytes.decode("utf-8")`: rejects truncated sequences, stray
continuation bytes, overlong encodings, surrogates (0xED 0xA0–0xBF ...),
and code points above U+10FFFF; `none` models a raised
`UnicodeDecodeError`. -/
def utf8DecodeChars : List Nat → Option (List Char)
  | [] => some []
  | b0 :: rest =>
    if b0 ≤ 0x7F then
      (utf8DecodeChars rest).map (fun cs => Char.ofNat b0 :: cs)
    else if 0xC2 ≤ b0 && b0 ≤ 0xDF then
      match rest with
      | b1 :: rest1 =>
        if isCont b1 then
          (utf8DecodeChars rest1).map
            (fun cs => Char.ofNat ((b0 - 0xC0) * 0x40 + (b1 - 0x80)) :: cs)
        else none
      | [] => none
    else if 0xE0 ≤ b0 && b0 ≤ 0xEF then
      match rest with
      | b1 :: b2 :: rest2 =>
        if ((if b0 = 0xE0 then 0xA0 else 0x80) ≤ b1
              && b1 ≤ (if b0 = 0xED then 0x9F else 0xBF)) && isCont b2 then
          (utf8DecodeChars rest2).map
            (fun cs =>
              Char.ofNat (((b0 - 0xE0) * 0x40 + (b1 - 0x80)) * 0x40 + (b2 - 0x80)) :: cs)
        else none
      | _ => none
    else if 0xF0 ≤ b0 && b0 ≤ 0xF4 then
      match rest with
      | b1 :: b2 :: b3 :: rest3 =>
        if ((if b0 = 0xF0 then 0x90 else 0x80) ≤ b1
              && b1 ≤ (if b0 = 0xF4 then 0x8F else 0xBF))
            && (isCont b2 && isCont b3) then
          (utf8DecodeChars rest3).map
            (fun cs =>
              Char.ofNat
                ((((b0 - 0xF0) * 0x40 + (b1 - 0x80)) * 0x40 + (b2 - 0x80)) * 0x40
                  + (b3 - 0x80)) :: cs)
        else none
      | _ => none
    else none

/-- Lower-case hexadecimal digit for a value below 16. -/
def hexDigit (n : Nat) : Char :=
  if n < 10 then Char.ofNat (0x30 + n) else Char.ofNat (0x57 + n)

/-- Two-digit lower-case hexadecimal rendering of a byte, as in Python's
`\xNN` escapes. -/
def twoHex (n : Nat) : String := String.mk [hexDigit (n / 16 % 16), hexDigit (n % 16)]

/-- Rendering of one byte inside a `bytes` repr with the given quote
character code: backslash and the quote are backslash-escaped, tab,
newline and carriage return use their short escapes, other printable
ASCII stands for itself, everything else becomes `\xNN`. -/
def byteEscape (quote : Nat) (n : Nat) : String :=
  if n = 0x5C then "\\\\"
  else if n = quote then "\\" ++ String.mk [Char.ofNat quote]
  else if n = 9 then "\\t"
  else if n = 10 then "\\n"
  else if n = 13 then "\\r"
  else if 0x20 ≤ n && n ≤ 0x7E then String.mk [Char.ofNat n]
  else "\\x" ++ twoHex n

/-- Python's repr of a bytes object, e.g. `b'abc'`: single quotes unless
the content contains a single quote and no double quote. -/
def pyReprBytes (bs : List Nat) : String :=
  let quote : Nat := if bs.contains 0x27 && !(bs.contains 0x22) then 0x22 else 0x27
  "b" ++ String.mk [Char.ofNat quote]
    ++ String.join (bs.map (byteEscape quote))
    ++ String.mk [Char.ofNat quote]

/-- Rendering of one character inside a str repr with the given quote
character code, exact on ASCII: backslash and the quote are escaped, tab,
newline, carriage return use short escapes, other ASCII control characters
and DEL become `\xNN`; characters at and above 0x80 are kept literal (CPython
keeps printable ones literal; this model does not reproduce the Unicode
printability table for the escapes of the non-printable ones). -/
def charEscape (quote : Nat) (c : Char) : String :=
  if c.toNat = 0x5C then "\\\\"
  else if c.toNat = quote then "\\" ++ String.mk [Char.ofNat quote]
  else if c.toNat = 9 then "\\t"
  else if c.toNat = 10 then "\\n"
  else if c.toNat = 13 then "\\r"
  else if c.toNat < 0x20 || c.toNat = 0x7F then "\\x" ++ twoHex c.toNat
  else String.mk [c]

/-- Python's repr of a text string, e.g. `'abc'`: single quotes unless the
content contains a single quote and no double quote. -/
def pyReprString (s : String) : String :=
  let quote : Nat :=
    if s.toList.contains (Char.ofNat 0x27) && !(s.toList.contains (Char.ofNat 0x22))
    then 0x22 else 0x27
  String.mk [Char.ofNat quote]
    ++ String.join (s.toList.map (charEscape quote))
    ++ String.mk [Char.ofNat quote]

mutual

/-- Python's `repr` on the value universe: strings and bytes get quoted
reprs, integers their decimal form, dictionaries the
`\x7b'key': value, ...\x7d` form with repr applied to keys and values. -/
def pyRepr : PyVal → String
  | .vStr s => pyReprString s
  | .vInt n => toString n
  | .vBytes bs => pyReprBytes bs
  | .vDict es => "\x7b" ++ pyReprEntries es ++ "\x7d"

/-- Comma-separated repr of a dict's entries, in order. -/
def pyReprEntries : List (String × PyVal) → String
  | [] => ""
  | [(k, v)] => pyReprString k ++ ": " ++ pyRepr v
  | (k, v) :: rest => pyReprString k ++ ": " ++ pyRepr v ++ ", " ++ pyReprEntries rest

end

/-- Python's `str()` coercion: the identity on text, `repr` on everything
else in the universe (which matches `str` on integers, bytes and dicts). -/
def pyStr : PyVal → String
  | .vStr s => s
  | v => pyRepr v

/-- Python's `in` operator as used on `event_dict` and `chunk_data`: key
membership on a dict, substring test on a str, a raised `TypeError` on
bytes or int. -/
def pyContains (key : String) : PyVal → Except PyErr Bool
  | .vDict es => .ok (es.lookup key).isSome
  | .vStr s => .ok (decide (key.toList <:+: s.toList))
  | _ => .error .typeError

/-- Python's subscript `v[key]` with a string key: dict lookup (raising
`KeyError` when absent), a raised `TypeError` on any non-dict (string
indices must be integers; bytes and int are not subscriptable by str). -/
def pySubscript (key : String) : PyVal → Except PyErr PyVal
  | .vDict es =>
    match es.lookup key with
    | some v => .ok v
    | none => .error .keyError
  | _ => .error .typeError

/-- The body of the `for` loop for one event: normalizeEvent, test `"chunk" in
event_dict`, subscript, test `"bytes" in chunk_data`, subscript, then
decode bytes as UTF-8 or coerce non-bytes with `str()`.  `.ok none` means
the event was skipped, `.ok (some t)` that `t` is appended to
`full_response`, `.error e` that the body raised `e` (which the `try`
around the whole loop will catch). -/
def processEvent (ev : AgentEvent) : Except PyErr (Option String) :=
  match pyContains "chunk" (normalizeEvent ev) with
  | .error e => .error e
  | .ok false => .ok none
  | .ok true =>
    match pySubscript "chunk" (normalizeEvent ev) with
    | .error e => .error e
    | .ok chunk_data =>
      match pyContains "bytes" chunk_data with
      | .error e => .error e
      | .ok false => .ok none
      | .ok true =>
        match pySubscript "bytes" chunk_data with
        | .error e => .error e
        | .ok output_bytes =>
          match output_bytes with
          | .vBytes bs =>
            match utf8DecodeChars bs with
            | some cs => .ok (some (String.mk cs))
            | none => .error .unicodeDecodeError
          | v => .ok (some (pyStr v))

/-- The `for` loop over the stream with `full_response` as accumulator,
before the surrounding `try`/`except`: `.ok` is normal exhaustion with the
final accumulation, `.error (acc, e)` is an exception `e` raised with
accumulation `acc` at that point (either by the iterator itself or by the
loop body). -/
def processLoopRaw : List StreamItem → String → Except (String × PyErr) String
  | [], acc => .ok acc
  | .raiseErr e :: _, acc => .error (acc, e)
  | .yield ev :: rest, acc =>
    match processEvent ev with
    | .error e => .error (acc, e)
    | .ok none => processLoopRaw rest acc
    | .ok (some s) => processLoopRaw rest (acc ++ s)

/-- What `process_streaming_response` does that the caller can observe:
the returned string, and the diagnostic printed by the `except` clause
(`none` when no exception was caught, `some e` when `e` was caught and
the "Error processing stream" line was printed). -/
structure ProcessOutcome where
  full_response : String
  diagnostic : Option PyErr
deriving DecidableEq

/-- `process_streaming_response(stream)`: run the loop inside `try`; on an
exception print the diagnostic and fall through; return `full_response`. -/
def process_streaming_response (stream : List StreamItem) : ProcessOutcome :=
  match processLoopRaw stream "" with
  | .ok s => ⟨s, none⟩
  | .error (acc, e) => ⟨acc, some e⟩

/-- Concatenation of a list of strings in order. -/
def concatAll : List String → String
  | [] => ""
  | s :: rest => s ++ concatAll rest

/-- The text an event contributes to `full_response` when its processing
does not raise: the appended string for contributing events, `""` for
skipped ones (and for raising ones, which never append). -/
def eventText (e : AgentEvent) : String :=
  match processEvent e with
  | .ok (some s) => s
  | _ => ""

/-- Whether processing an event completes without raising. -/
def eventOk (e : AgentEvent) : Bool :=
  match processEvent e with
  | .ok _ => true
  | .error _ => false

/-- A well-formed chunk event: it normalizes to a mapping with a "chunk"
key whose value is a mapping with a "bytes" key holding valid UTF-8
bytes. -/
def wellFormedChunkEvent (e : AgentEvent) : Bool :=
  match normalizeEvent e with
  | .vDict es =>
    match es.lookup "chunk" with
    | some (.vDict ces) =>
      match ces.lookup "bytes" with
      | some (.vBytes bs) => (utf8DecodeChars bs).isSome
      | _ => false
    | _ => false
  | _ => false

/-- The UTF-8-decoded payload of a well-formed chunk event (and `""` on
events of any other shape). -/
def decodedPayload (e : AgentEvent) : String :=
  match normalizeEvent e with
  | .vDict es =>
    match es.lookup "chunk" with
    | some (.vDict ces) =>
      match ces.lookup "bytes" with
      | some (.vBytes bs) =>
        match utf8DecodeChars bs with
        | some cs => String.mk cs
        | none => ""
      | _ => ""
    | _ => ""
  | _ => ""

/-- A non-chunk event: it normalizes to a mapping without a "chunk" key. -/
def isNonChunkEvent (e : AgentEvent) : Bool :=
  match normalizeEvent e with
  | .vDict es => (es.lookup "chunk").isNone
  | _ => false

/-! ### Lemmas about processing a single event -/

/-- A raw mapping and an object converting to the same mapping are
processed identically. -/
theorem processEvent_raw_obj (m : PyVal) :
    processEvent (.raw m) = processEvent (.obj m) := rfl

/-- A well-formed chunk event contributes exactly its decoded payload. -/
theorem processEvent_wellFormed (e : AgentEvent) (h : wellFormedChunkEvent e = true) :
    processEvent e = .ok (some (decodedPayload e)) := by
  unfold wellFormedChunkEvent at h
  cases hne : normalizeEvent e
  case vBytes => simp [hne] at h
  case vStr => simp [hne] at h
  case vInt => simp [hne] at h
  case vDict es =>
    cases hl : es.lookup "chunk"
    case none => simp [hne, hl] at h
    case some cv =>
      cases cv
      case vBytes => simp [hne, hl] at h
      case vStr => simp [hne, hl] at h
      case vInt => simp [hne, hl] at h
      case vDict ces =>
        cases hb : ces.lookup "bytes"
        case none => simp [hne, hl, hb] at h
        case some bv =>
          cases bv
          case vStr => simp [hne, hl, hb] at h
          case vInt => simp [hne, hl, hb] at h
          case vDict => simp [hne, hl, hb] at h
          case vBytes bs =>
            cases hd : utf8DecodeChars bs
            case none => simp [hne, hl, hb, hd] at h
            case some cs =>
              simp [processEvent, decodedPayload, pyContains, pySubscript,
                hne, hl, hb, hd]

/-- An event that normalizes to a mapping without a "chunk" key is skipped
without raising. -/
theorem processEvent_nonChunk (e : AgentEvent) (h : isNonChunkEvent e = true) :
    processEvent e = .ok none := by
  unfold isNonChunkEvent at h
  cases hne : normalizeEvent e
  case vBytes => simp [hne] at h
  case vStr => simp [hne] at h
  case vInt => simp [hne] at h
  case vDict es =>
    cases hl : es.lookup "chunk"
    case some => simp [hne, hl] at h
    case none => simp [processEvent, pyContains, hne, hl]

/-- A chunk event whose chunk mapping lacks a "bytes" key is skipped
without raising. -/
theorem processEvent_missingBytes (es ces : List (String × PyVal))
    (hl : es.lookup "chunk" = some (.vDict ces))
    (hb : ces.lookup "bytes" = none) :
    processEvent (.raw (.vDict es)) = .ok none := by
  simp [processEvent, normalizeEvent, pyContains, pySubscript, hl, hb]

/-- A chunk event whose "bytes" payload is a byte string that is not valid
UTF-8 raises `UnicodeDecodeError` out of the loop body. -/
theorem processEvent_badUtf8 (es ces : List (String × PyVal)) (bs : List Nat)
    (hl : es.lookup "chunk" = some (.vDict ces))
    (hb : ces.lookup "bytes" = some (.vBytes bs))
    (hd : utf8DecodeChars bs = none) :
    processEvent (.raw (.vDict es)) = .error .unicodeDecodeError := by
  simp [processEvent, normalizeEvent, pyContains, pySubscript, hl, hb, hd]

/-- A chunk event whose "bytes" payload is any non-bytes value contributes
the `str()` coercion of that value. -/
theorem processEvent_nonBytesPayload (es ces : List (String × PyVal)) (v : PyVal)
    (hl : es.lookup "chunk" = some (.vDict ces))
    (hb : ces.lookup "bytes" = some v)
    (hv : ∀ bs, v ≠ .vBytes bs) :
    processEvent (.raw (.vDict es)) = .ok (some (pyStr v)) := by
  cases v
  case vBytes bs => exact absurd rfl (hv bs)
  all_goals simp [processEvent, normalizeEvent, pyContains, pySubscript, hl, hb]

/-! ### Lemmas about the loop -/

/-- Running the loop over a run of events none of which raises appends
their contributions, in order, to the accumulator, and then continues
with the rest of the stream. -/
theorem processLoopRaw_allOk :
    ∀ (evs : List AgentEvent) (tail : List StreamItem) (acc : String),
      (∀ e ∈ evs, eventOk e = true) →
      processLoopRaw (evs.map .yield ++ tail) acc
        = processLoopRaw tail (acc ++ concatAll (evs.map eventText))
  | [], tail, acc, _ => by simp [concatAll]
  | e :: rest, tail, acc, h => by
    have he : eventOk e = true := h e (by simp)
    have hrest : ∀ x ∈ rest, eventOk x = true := fun x hx => h x (by simp [hx])
    cases hpe : processEvent e with
    | error err => simp [eventOk, hpe] at he
    | ok o =>
      cases o with
      | none =>
        have hte : eventText e = "" := by simp [eventText, hpe]
        simp only [List.map_cons, List.cons_append, processLoopRaw, hpe, List.append_eq]
        rw [processLoopRaw_allOk rest tail acc hrest]
        simp [concatAll, hte]
      | some s =>
        have hte : eventText e = s := by simp [eventText, hpe]
        simp only [List.map_cons, List.cons_append, processLoopRaw, hpe, List.append_eq]
        rw [processLoopRaw_allOk rest tail (acc ++ s) hrest]
        simp [concatAll, hte, String.append_assoc]

/-- An event whose processing skips (no raise, no contribution) can be
removed from the stream without changing the loop's result. -/
theorem processLoopRaw_skip (ev : AgentEvent) (h : processEvent ev = .ok none) :
    ∀ (pre post : List AgentEvent) (acc : String),
      processLoopRaw ((pre ++ ev :: post).map .yield) acc
        = processLoopRaw ((pre ++ post).map .yield) acc
  | [], post, acc => by simp [processLoopRaw, h]
  | p :: pre, post, acc => by
    cases hp : processEvent p with
    | error err => simp [processLoopRaw, hp]
    | ok o =>
      cases o with
      | none =>
        simp only [List.cons_append, List.map_cons, processLoopRaw, hp, List.append_eq]
        exact processLoopRaw_skip ev h pre post acc
      | some s =>
        simp only [List.cons_append, List.map_cons, processLoopRaw, hp, List.append_eq]
        exact processLoopRaw_skip ev h pre post (acc ++ s)

/-- Replacing one yielded event by another that processes identically does
not change the loop's result. -/
theorem processLoopRaw_congrEvent (a b : AgentEvent)
    (h : processEvent a = processEvent b) :
    ∀ (pre post : List StreamItem) (acc : String),
      processLoopRaw (pre ++ .yield a :: post) acc
        = processLoopRaw (pre ++ .yield b :: post) acc
  | [], post, acc => by
    simp only [List.nil_append, processLoopRaw, h]
  | .raiseErr e :: pre, post, acc => by simp [processLoopRaw]
  | .yield p :: pre, post, acc => by
    cases hp : processEvent p with
    | error err => simp [processLoopRaw, hp]
    | ok o =>
      cases o with
      | none =>
        simp only [List.cons_append, processLoopRaw, hp, List.append_eq]
        exact processLoopRaw_congrEvent a b h pre post acc
      | some s =>
        simp only [List.cons_append, processLoopRaw, hp, List.append_eq]
        exact processLoopRaw_congrEvent a b h pre post (acc ++ s)

/-- The events the loop fully processes before the first failure (an
iterator raise or a raising event body); the whole event list when nothing
fails. -/
def processedEvents : List StreamItem → List AgentEvent
  | [] => []
  | .raiseErr _ :: _ => []
  | .yield e :: rest =>
    match processEvent e with
    | .error _ => []
    | .ok _ => e :: processedEvents rest

/-- Whatever the stream does, the string the loop is left with — final on
normal exhaustion, accumulated-so-far on a raise — is the concatenation of
the contributions of the successfully processed events. -/
theorem processLoopRaw_resultString :
    ∀ (stream : List StreamItem) (acc : String),
      (match processLoopRaw stream acc with
        | .ok s => s
        | .error (a, _) => a)
        = acc ++ concatAll ((processedEvents stream).map eventText)
  | [], acc => by simp [processLoopRaw, processedEvents, concatAll]
  | .raiseErr e :: rest, acc => by
    simp [processLoopRaw, processedEvents, concatAll]
  | .yield e :: rest, acc => by
    cases hpe : processEvent e with
    | error err => simp [processLoopRaw, processedEvents, hpe, concatAll]
    | ok o =>
      cases o with
      | none =>
        have hte : eventText e = "" := by simp [eventText, hpe]
        simp only [processLoopRaw, processedEvents, hpe]
        rw [processLoopRaw_resultString rest acc]
        simp [concatAll, hte]
      | some s =>
        have hte : eventText e = s := by simp [eventText, hpe]
        simp only [processLoopRaw, processedEvents, hpe]
        rw [processLoopRaw_resultString rest (acc ++ s)]
        simp [concatAll, hte, String.append_assoc]

/-- Concatenation distributes over list append. -/
theorem concatAll_append (a b : List String) :
    concatAll (a ++ b) = concatAll a ++ concatAll b := by
  induction a with
  | nil => simp [concatAll]
  | cons s rest ih => simp [concatAll, ih, String.append_assoc]

/-- A well-formed chunk event's contribution is its decoded payload. -/
theorem eventText_wellFormed (e : AgentEvent) (h : wellFormedChunkEvent e = true) :
    eventText e = decodedPayload e := by
  simp [eventText, processEvent_wellFormed e h]

/-- A non-chunk event is not a well-formed chunk event. -/
theorem nonChunk_not_wellFormed (e : AgentEvent) (h : isNonChunkEvent e = true) :
    wellFormedChunkEvent e = false := by
  unfold isNonChunkEvent at h
  cases hne : normalizeEvent e
  case vBytes => simp [hne] at h
  case vStr => simp [hne] at h
  case vInt => simp [hne] at h
  case vDict es =>
    cases hl : es.lookup "chunk"
    case some => simp [hne, hl] at h
    case none => simp [wellFormedChunkEvent, hne, hl]

/-- When the events before `e` all process without raising and processing
`e` raises `err`, the reducer returns the accumulation of the events before
`e` and prints the diagnostic for `err`; nothing after `e` is consumed. -/
theorem process_abort_at_event (pre post : List AgentEvent) (e : AgentEvent)
    (err : PyErr) (he : processEvent e = .error err)
    (hpre : ∀ x ∈ pre, eventOk x = true) :
    process_streaming_response ((pre ++ e :: post).map .yield)
      = ⟨concatAll (pre.map eventText), some err⟩ := by
  unfold process_streaming_response
  rw [List.map_append, processLoopRaw_allOk pre ((e :: post).map .yield) "" hpre]
  simp [processLoopRaw, he]

/-- When no event of the stream raises, the reducer returns the
concatenation of all contributions with no diagnostic. -/
theorem process_allOk (evs : List AgentEvent)
    (h : ∀ e ∈ evs, eventOk e = true) :
    process_streaming_response (evs.map .yield)
      = ⟨concatAll (evs.map eventText), none⟩ := by
  unfold process_streaming_response
  have h0 := processLoopRaw_allOk evs [] "" h
  simp only [List.append_nil, processLoopRaw, String.empty_append] at h0
  rw [h0]

/-! ### The claims -/

/-- Claim C1: for every finite sequence consisting only of well-formed
chunk events (each a mapping with a "chunk" key whose value is a mapping
with a "bytes" key holding valid UTF-8 bytes), `process_streaming_response`
returns exactly the concatenation, in arrival order, of the UTF-8-decoded
payloads of those events, with no diagnostic. -/
theorem C1_wellformed_concat (evs : List AgentEvent)
    (h : ∀ e ∈ evs, wellFormedChunkEvent e = true) :
    process_streaming_response (evs.map .yield)
      = ⟨concatAll (evs.map decodedPayload), none⟩ := by
  have hok : ∀ e ∈ evs, eventOk e = true := fun e he => by
    simp [eventOk, processEvent_wellFormed e (h e he)]
  rw [process_allOk evs hok,
    List.map_congr_left (fun e he => eventText_wellFormed e (h e he))]

/-- Witness for C1: the spec's scenario restricted to its two well-formed
chunk events, carrying b"Hello, " and b"world!". -/
theorem C1_wellformed_concat_witness :
    (∀ e ∈ [AgentEvent.raw (.vDict [("chunk",
              PyVal.vDict [("bytes", .vBytes [72, 101, 108, 108, 111, 44, 32])])]),
            AgentEvent.raw (.vDict [("chunk",
              PyVal.vDict [("bytes", .vBytes [119, 111, 114, 108, 100, 33])])])],
        wellFormedChunkEvent e = true)
    ∧ process_streaming_response
          ([AgentEvent.raw (.vDict [("chunk",
              PyVal.vDict [("bytes", .vBytes [72, 101, 108, 108, 111, 44, 32])])]),
            AgentEvent.raw (.vDict [("chunk",
              PyVal.vDict [("bytes", .vBytes [119, 111, 114, 108, 100, 33])])])].map .yield)
        = ⟨concatAll
            ([AgentEvent.raw (.vDict [("chunk",
                PyVal.vDict [("bytes", .vBytes [72, 101, 108, 108, 111, 44, 32])])]),
              AgentEvent.raw (.vDict [("chunk",
                PyVal.vDict [("bytes", .vBytes [119, 111, 114, 108, 100, 33])])])].map
              decodedPayload), none⟩ :=
  ⟨by decide, C1_wellformed_concat _ (by decide)⟩

/-- Claim C2: for every stream whose iteration raises partway through
(after yielding a prefix of events, none of which raises while being
processed), `process_streaming_response` returns the concatenation of the
contributions of the events before the failure point, the diagnostic names
the raised error, and the call itself completes normally — nothing yielded
after the failure point is consumed. -/
theorem C2_partial_on_iter_raise (evs : List AgentEvent) (err : PyErr)
    (rest : List StreamItem) (h : ∀ e ∈ evs, eventOk e = true) :
    process_streaming_response (evs.map .yield ++ .raiseErr err :: rest)
      = ⟨concatAll (evs.map eventText), some err⟩ := by
  unfold process_streaming_response
  rw [processLoopRaw_allOk evs (.raiseErr err :: rest) "" h]
  simp [processLoopRaw]

/-- Witness for C2: the spec's scenario `[b"A" chunk, RAISES]` gives "A"
with a diagnostic. -/
theorem C2_partial_on_iter_raise_witness :
    (∀ e ∈ [AgentEvent.raw (.vDict [("chunk", PyVal.vDict [("bytes", .vBytes [65])])])],
        eventOk e = true)
    ∧ process_streaming_response
          ([AgentEvent.raw (.vDict [("chunk", PyVal.vDict [("bytes", .vBytes [65])])])].map .yield
            ++ .raiseErr (.streamError "connection reset") :: [])
        = ⟨concatAll
            ([AgentEvent.raw (.vDict [("chunk", PyVal.vDict [("bytes", .vBytes [65])])])].map
              eventText),
          some (.streamError "connection reset")⟩ :=
  ⟨by decide, C2_partial_on_iter_raise _ _ _ (by decide)⟩

/-- Claim C3: for every input stream — well-formed, malformed, wrongly
typed, or raising mid-iteration — `process_streaming_response` returns a
string, namely the concatenation of the contributions of the events it
successfully processed before the first failure (all of them when nothing
fails); no raised failure escapes: the outcome is total. -/
theorem C3_total_partial_string (stream : List StreamItem) :
    (process_streaming_response stream).full_response
      = concatAll ((processedEvents stream).map eventText) := by
  have h0 := processLoopRaw_resultString stream ""
  unfold process_streaming_response
  cases hp : processLoopRaw stream "" with
  | ok s =>
    rw [hp] at h0
    simp only [String.empty_append] at h0
    simp [h0]
  | error p =>
    obtain ⟨a, e⟩ := p
    rw [hp] at h0
    simp only [String.empty_append] at h0
    simp [h0]

/-- Counterexample to claim C4 as stated: a wrongly-typed "chunk" value
(the integer 1) is not skipped — the `"bytes" in chunk_data` test on it
raises `TypeError`, which is caught only around the whole loop, so the
remainder of the stream is abandoned: the following well-formed chunk
carrying b"world!" contributes nothing and the result is empty. -/
theorem C4_counterexample :
    process_streaming_response
        [.yield (.raw (.vDict [("chunk", .vInt 1)])),
         .yield (.raw (.vDict [("chunk",
           PyVal.vDict [("bytes", .vBytes [119, 111, 114, 108, 100, 33])])]))]
      = ⟨"", some .typeError⟩ := by decide

/-- Claim C4 amended: per-event shape problems that make the loop body
skip — a mapping missing the "chunk" key, or a chunk mapping missing the
"bytes" key — are handled by skipping that event and continuing, but a
wrongly-typed event or chunk value makes the loop body raise, and the
raise is caught only around the whole loop: the remainder of the stream is
abandoned and the accumulation so far is returned with a diagnostic. -/
theorem C4_amended_shape_problems (pre post : List AgentEvent) (e : AgentEvent)
    (hpre : ∀ x ∈ pre, eventOk x = true) :
    (processEvent e = .ok none →
      process_streaming_response ((pre ++ e :: post).map .yield)
        = process_streaming_response ((pre ++ post).map .yield))
    ∧ (∀ err, processEvent e = .error err →
        process_streaming_response ((pre ++ e :: post).map .yield)
          = ⟨concatAll (pre.map eventText), some err⟩) := by
  refine ⟨fun h => ?_, fun err h => process_abort_at_event pre post e err h hpre⟩
  unfold process_streaming_response
  rw [processLoopRaw_skip e h pre post ""]

/-- Witness for C4 (amended): a chunk mapping missing "bytes", between no
other events, is skipped. -/
theorem C4_amended_shape_problems_witness :
    (∀ x ∈ ([] : List AgentEvent), eventOk x = true)
    ∧ ((processEvent (.raw (.vDict [("chunk", PyVal.vDict [("other", .vInt 1)])])) = .ok none →
        process_streaming_response
            (([] ++ AgentEvent.raw (.vDict [("chunk", PyVal.vDict [("other", .vInt 1)])]) :: []).map .yield)
          = process_streaming_response (([] ++ [] : List AgentEvent).map .yield))
      ∧ (∀ err,
          processEvent (.raw (.vDict [("chunk", PyVal.vDict [("other", .vInt 1)])])) = .error err →
          process_streaming_response
              (([] ++ AgentEvent.raw (.vDict [("chunk", PyVal.vDict [("other", .vInt 1)])]) :: []).map .yield)
            = ⟨concatAll (([] : List AgentEvent).map eventText), some err⟩)) :=
  ⟨by decide, C4_amended_shape_problems [] [] _ (by decide)⟩

/-- Counterexample to claim C5 as stated: an event whose chunk mapping has
"bytes" value 42 (neither a byte string nor text) is not skipped — the
code coerces it with `str()` and appends "42"; the result is "42", not the
empty string the claim requires, although indeed no failure is surfaced. -/
theorem C5_counterexample :
    process_streaming_response
        [.yield (.raw (.vDict [("chunk", .vDict [("bytes", .vInt 42)])]))]
      = ⟨"42", none⟩ := by decide

/-- Claim C5 amended: for an event whose chunk mapping has a "bytes" value
of non-bytes type, `process_streaming_response` appends the generic string
coercion `str()` of that value (identity on text); no failure is surfaced
and the contributions of surrounding events are unchanged. -/
theorem C5_amended_str_coercion (es ces : List (String × PyVal)) (v : PyVal)
    (hl : es.lookup "chunk" = some (.vDict ces))
    (hb : ces.lookup "bytes" = some v)
    (hv : ∀ bs, v ≠ .vBytes bs)
    (pre post : List AgentEvent)
    (hpre : ∀ x ∈ pre, eventOk x = true)
    (hpost : ∀ x ∈ post, eventOk x = true) :
    process_streaming_response ((pre ++ .raw (.vDict es) :: post).map .yield)
      = ⟨concatAll (pre.map eventText)
          ++ (pyStr v ++ concatAll (post.map eventText)), none⟩ := by
  have hev : processEvent (.raw (.vDict es)) = .ok (some (pyStr v)) :=
    processEvent_nonBytesPayload es ces v hl hb hv
  have hok : ∀ x ∈ pre ++ .raw (.vDict es) :: post, eventOk x = true := by
    intro x hx
    rcases List.mem_append.mp hx with h1 | h2
    · exact hpre x h1
    · rcases List.mem_cons.mp h2 with rfl | h3
      · simp [eventOk, hev]
      · exact hpost x h3
  rw [process_allOk _ hok]
  have hte : eventText (.raw (.vDict es)) = pyStr v := by simp [eventText, hev]
  simp [concatAll_append, concatAll, hte]

/-- Witness for C5 (amended): a lone `«chunk»: «bytes»: 42` event yields
the coercion str(42) = "42". -/
theorem C5_amended_str_coercion_witness :
    ([("chunk", PyVal.vDict [("bytes", PyVal.vInt 42)])].lookup "chunk"
        = some (.vDict [("bytes", PyVal.vInt 42)]))
    ∧ ([("bytes", PyVal.vInt 42)].lookup "bytes" = some (PyVal.vInt 42))
    ∧ (∀ bs, PyVal.vInt 42 ≠ .vBytes bs)
    ∧ (∀ x ∈ ([] : List AgentEvent), eventOk x = true)
    ∧ process_streaming_response
          (([] ++ AgentEvent.raw (.vDict [("chunk", PyVal.vDict [("bytes", PyVal.vInt 42)])])
              :: []).map .yield)
        = ⟨concatAll (([] : List AgentEvent).map eventText)
            ++ (pyStr (PyVal.vInt 42) ++ concatAll (([] : List AgentEvent).map eventText)),
          none⟩ :=
  ⟨rfl, rfl, fun bs h => PyVal.noConfusion h, by decide,
    C5_amended_str_coercion [("chunk", PyVal.vDict [("bytes", PyVal.vInt 42)])]
      [("bytes", PyVal.vInt 42)] (PyVal.vInt 42) rfl rfl
      (fun bs h => PyVal.noConfusion h) [] [] (by decide) (by decide)⟩

/-- Claim C6: for every chunk event whose "bytes" payload is a byte string
that is not valid UTF-8 (preceded by events that process without raising),
the returned string is exactly the accumulation of the events before it —
the stream is aborted early, and no empty or garbled text is appended for
the offending chunk as though decoding had succeeded. -/
theorem C6_bad_utf8_no_append (pre post : List AgentEvent)
    (es ces : List (String × PyVal)) (bs : List Nat)
    (hl : es.lookup "chunk" = some (.vDict ces))
    (hb : ces.lookup "bytes" = some (.vBytes bs))
    (hd : utf8DecodeChars bs = none)
    (hpre : ∀ x ∈ pre, eventOk x = true) :
    (process_streaming_response ((pre ++ .raw (.vDict es) :: post).map .yield)).full_response
      = concatAll (pre.map eventText) := by
  rw [process_abort_at_event pre post _ .unicodeDecodeError
    (processEvent_badUtf8 es ces bs hl hb hd) hpre]

/-- Witness for C6: a valid b"A" chunk followed by the lone invalid byte
0xFF leaves exactly "A". -/
theorem C6_bad_utf8_no_append_witness :
    ([("chunk", PyVal.vDict [("bytes", PyVal.vBytes [0xFF])])].lookup "chunk"
        = some (.vDict [("bytes", PyVal.vBytes [0xFF])]))
    ∧ ([("bytes", PyVal.vBytes [0xFF])].lookup "bytes" = some (PyVal.vBytes [0xFF]))
    ∧ utf8DecodeChars [0xFF] = none
    ∧ (∀ x ∈ [AgentEvent.raw (.vDict [("chunk", PyVal.vDict [("bytes", .vBytes [65])])])],
        eventOk x = true)
    ∧ (process_streaming_response
          (([AgentEvent.raw (.vDict [("chunk", PyVal.vDict [("bytes", .vBytes [65])])])]
              ++ AgentEvent.raw (.vDict [("chunk", PyVal.vDict [("bytes", PyVal.vBytes [0xFF])])])
              :: []).map .yield)).full_response
        = concatAll
            ([AgentEvent.raw (.vDict [("chunk", PyVal.vDict [("bytes", .vBytes [65])])])].map
              eventText) :=
  ⟨rfl, rfl, rfl, by decide,
    C6_bad_utf8_no_append
      [AgentEvent.raw (.vDict [("chunk", PyVal.vDict [("bytes", .vBytes [65])])])] []
      [("chunk", PyVal.vDict [("bytes", PyVal.vBytes [0xFF])])]
      [("bytes", PyVal.vBytes [0xFF])] [0xFF] rfl rfl rfl (by decide)⟩

/-- Claim C7: for every sequence interleaving well-formed chunk events and
non-chunk events (mappings without a "chunk" key), the non-chunk events
contribute nothing: the result is the concatenation of the decoded payloads
of the chunk events alone, in their arrival order. -/
theorem C7_interleaved (evs : List AgentEvent)
    (h : ∀ e ∈ evs, wellFormedChunkEvent e = true ∨ isNonChunkEvent e = true) :
    process_streaming_response (evs.map .yield)
      = ⟨concatAll ((evs.filter wellFormedChunkEvent).map decodedPayload), none⟩ := by
  have hok : ∀ e ∈ evs, eventOk e = true := by
    intro e he
    rcases h e he with hw | hn
    · simp [eventOk, processEvent_wellFormed e hw]
    · simp [eventOk, processEvent_nonChunk e hn]
  rw [process_allOk evs hok]
  have hconcat : ∀ (l : List AgentEvent),
      (∀ e ∈ l, wellFormedChunkEvent e = true ∨ isNonChunkEvent e = true) →
      concatAll (l.map eventText)
        = concatAll ((l.filter wellFormedChunkEvent).map decodedPayload) := by
    intro l
    induction l with
    | nil => intro _; rfl
    | cons e rest ih =>
      intro hl
      have hrest : ∀ x ∈ rest, wellFormedChunkEvent x = true ∨ isNonChunkEvent x = true :=
        fun x hx => hl x (by simp [hx])
      rcases hl e (by simp) with hw | hn
      · simp [concatAll, List.filter_cons, hw, eventText_wellFormed e hw, ih hrest]
      · have hnw := nonChunk_not_wellFormed e hn
        have hte : eventText e = "" := by simp [eventText, processEvent_nonChunk e hn]
        simp [concatAll, List.filter_cons, hnw, hte, ih hrest]
  rw [hconcat evs h]

/-- Witness for C7: the spec's scenario `[«chunk»: b"Hello, ", «other»: 1,
«chunk»: b"world!"]` gives "Hello, world!". -/
theorem C7_interleaved_witness :
    (∀ e ∈ [AgentEvent.raw (.vDict [("chunk",
              PyVal.vDict [("bytes", .vBytes [72, 101, 108, 108, 111, 44, 32])])]),
            AgentEvent.raw (.vDict [("other", .vInt 1)]),
            AgentEvent.raw (.vDict [("chunk",
              PyVal.vDict [("bytes", .vBytes [119, 111, 114, 108, 100, 33])])])],
        wellFormedChunkEvent e = true ∨ isNonChunkEvent e = true)
    ∧ process_streaming_response
          ([AgentEvent.raw (.vDict [("chunk",
              PyVal.vDict [("bytes", .vBytes [72, 101, 108, 108, 111, 44, 32])])]),
            AgentEvent.raw (.vDict [("other", .vInt 1)]),
            AgentEvent.raw (.vDict [("chunk",
              PyVal.vDict [("bytes", .vBytes [119, 111, 114, 108, 100, 33])])])].map .yield)
        = ⟨concatAll
            (([AgentEvent.raw (.vDict [("chunk",
                PyVal.vDict [("bytes", .vBytes [72, 101, 108, 108, 111, 44, 32])])]),
              AgentEvent.raw (.vDict [("other", .vInt 1)]),
              AgentEvent.raw (.vDict [("chunk",
                PyVal.vDict [("bytes", .vBytes [119, 111, 114, 108, 100, 33])])])].filter
                wellFormedChunkEvent).map decodedPayload), none⟩ :=
  ⟨by decide, C7_interleaved _ (by decide)⟩

/-- Claim C8: a malformed chunk event whose chunk mapping lacks a "bytes"
key contributes nothing — it can be removed from the stream without
changing the outcome — and, in particular, the single-event input
`[«chunk»: «»]` gives the empty string with no diagnostic. -/
theorem C8_missing_bytes_skip (pre post : List AgentEvent)
    (ces : List (String × PyVal)) (hb : ces.lookup "bytes" = none) :
    (process_streaming_response
        ((pre ++ .raw (.vDict [("chunk", .vDict ces)]) :: post).map .yield)
      = process_streaming_response ((pre ++ post).map .yield))
    ∧ process_streaming_response [.yield (.raw (.vDict [("chunk", .vDict [])]))]
      = ⟨"", none⟩ := by
  constructor
  · have he : processEvent (.raw (.vDict [("chunk", .vDict ces)])) = .ok none :=
      processEvent_missingBytes [("chunk", .vDict ces)] ces rfl hb
    unfold process_streaming_response
    rw [processLoopRaw_skip _ he pre post ""]
  · decide

/-- Witness for C8: dropping an empty-chunk event between b"A" and b"B"
chunks leaves the outcome unchanged. -/
theorem C8_missing_bytes_skip_witness :
    (([("other", PyVal.vInt 7)] : List (String × PyVal)).lookup "bytes" = none)
    ∧ ((process_streaming_response
          (([AgentEvent.raw (.vDict [("chunk", PyVal.vDict [("bytes", .vBytes [65])])])]
              ++ AgentEvent.raw (.vDict [("chunk", PyVal.vDict [("other", PyVal.vInt 7)])])
              :: [AgentEvent.raw (.vDict [("chunk", PyVal.vDict [("bytes", .vBytes [66])])])]).map
            .yield)
        = process_streaming_response
            (([AgentEvent.raw (.vDict [("chunk", PyVal.vDict [("bytes", .vBytes [65])])])]
                ++ [AgentEvent.raw (.vDict [("chunk", PyVal.vDict [("bytes", .vBytes [66])])])]).map
              .yield))
      ∧ process_streaming_response [.yield (.raw (.vDict [("chunk", PyVal.vDict [])]))]
        = ⟨"", none⟩) :=
  ⟨rfl,
    C8_missing_bytes_skip
      [AgentEvent.raw (.vDict [("chunk", PyVal.vDict [("bytes", .vBytes [65])])])]
      [AgentEvent.raw (.vDict [("chunk", PyVal.vDict [("bytes", .vBytes [66])])])]
      [("other", PyVal.vInt 7)] rfl⟩

/-- Claim C9: an event given directly as a mapping m and an event given as
an object whose to-mapping conversion returns m are normalized to the same
mapping and processed identically: swapping one for the other anywhere in
the stream leaves the outcome of `process_streaming_response` unchanged. -/
theorem C9_raw_obj_same (m : PyVal) (pre post : List StreamItem) :
    process_streaming_response (pre ++ .yield (.raw m) :: post)
      = process_streaming_response (pre ++ .yield (.obj m) :: post) := by
  unfold process_streaming_response
  rw [processLoopRaw_congrEvent (.raw m) (.obj m) (processEvent_raw_obj m) pre post ""]

/-- Claim C10: a chunk event whose "bytes" payload is invalid UTF-8 stops
processing: the decode raises out of the loop, the diagnostic for the
`UnicodeDecodeError` is printed, nothing after the offending chunk is
consumed (even well-formed events), and the accumulation of the events
strictly before it is returned. -/
theorem C10_bad_utf8_abort (pre post : List AgentEvent)
    (es ces : List (String × PyVal)) (bs : List Nat)
    (hl : es.lookup "chunk" = some (.vDict ces))
    (hb : ces.lookup "bytes" = some (.vBytes bs))
    (hd : utf8DecodeChars bs = none)
    (hpre : ∀ x ∈ pre, eventOk x = true) :
    process_streaming_response ((pre ++ .raw (.vDict es) :: post).map .yield)
      = ⟨concatAll (pre.map eventText), some .unicodeDecodeError⟩ :=
  process_abort_at_event pre post _ .unicodeDecodeError
    (processEvent_badUtf8 es ces bs hl hb hd) hpre

/-- Witness for C10: a b"A" chunk, then a chunk with the invalid bytes
0xC0 0x80 (an overlong encoding), then a well-formed b"B" chunk: the
result is "A" with a UnicodeDecodeError diagnostic; "B" never appears. -/
theorem C10_bad_utf8_abort_witness :
    ([("chunk", PyVal.vDict [("bytes", PyVal.vBytes [0xC0, 0x80])])].lookup "chunk"
        = some (.vDict [("bytes", PyVal.vBytes [0xC0, 0x80])]))
    ∧ ([("bytes", PyVal.vBytes [0xC0, 0x80])].lookup "bytes"
        = some (PyVal.vBytes [0xC0, 0x80]))
    ∧ utf8DecodeChars [0xC0, 0x80] = none
    ∧ (∀ x ∈ [AgentEvent.raw (.vDict [("chunk", PyVal.vDict [("bytes", .vBytes [65])])])],
        eventOk x = true)
    ∧ process_streaming_response
          (([AgentEvent.raw (.vDict [("chunk", PyVal.vDict [("bytes", .vBytes [65])])])]
              ++ AgentEvent.raw (.vDict [("chunk",
                  PyVal.vDict [("bytes", PyVal.vBytes [0xC0, 0x80])])])
              :: [AgentEvent.raw (.vDict [("chunk", PyVal.vDict [("bytes", .vBytes [66])])])]).map
            .yield)
        = ⟨concatAll
            ([AgentEvent.raw (.vDict [("chunk", PyVal.vDict [("bytes", .vBytes [65])])])].map
              eventText),
          some .unicodeDecodeError⟩ :=
  ⟨rfl, rfl, rfl, by decide,
    C10_bad_utf8_abort
      [AgentEvent.raw (.vDict [("chunk", PyVal.vDict [("bytes", .vBytes [65])])])]
      [AgentEvent.raw (.vDict [("chunk", PyVal.vDict [("bytes", .vBytes [66])])])]
      [("chunk", PyVal.vDict [("bytes", PyVal.vBytes [0xC0, 0x80])])]
      [("bytes", PyVal.vBytes [0xC0, 0x80])] [0xC0, 0x80] rfl rfl rfl (by decide)⟩
